import Mathlib

/-!
Shallow embedding of `bot.py`, a MEXC trading bot: the position lifecycle
engine (`trading_loop`, `market_buy`, `market_sell`) together with its
sqlite `positions` table and the runtime configuration that the Telegram
webhook mutates.  External calls (MEXC HTTP endpoints, Telegram) are
modelled as oracle inputs supplied per cycle: `mexc_get` returns an
`Option` (the Python helper swallows every exception and returns `None`),
while `mexc_post` has no handler, so its failures are modelled as an
`Except.error`.  An uncaught Python exception anywhere in the loop body is
modelled as an `Except.error` carrying the database state at the moment of
the raise (the sqlite file keeps its contents when the trading thread
dies).  Prices, quantities and timestamps are modelled as rationals.
-/

deriving instance DecidableEq for Except

namespace BotPy

/-- Constants from bot.py lines 43-51. -/
def CANDLE_LIMIT : Nat := 5

/-- Sleep between full cycles (bot.py line 45, used at line 285). -/
def CHECK_INTERVAL : Rat := 20

/-- Position timeout in seconds (bot.py line 47): `7 * 60`. -/
def SELL_TIMEOUT : Rat := 7 * 60

/-- Trailing-stop fraction (bot.py line 48). -/
def TRAIL_PERCENT : Rat := 15 / 100

/-- Exit reasons passed to `market_sell` from `trading_loop` lines 278-283. -/
inductive ExitReason
  | TARGET
  | TRAIL
  | TIMEOUT
  deriving DecidableEq, Repr

/-- One row of the sqlite `positions` table (bot.py lines 61-67):
`symbol TEXT PRIMARY KEY, qty REAL, entry_price REAL, entry_time REAL,
high_price REAL`. -/
structure Position where
  symbol : String
  qty : Rat
  entry_price : Rat
  entry_time : Rat
  high_price : Rat
  deriving DecidableEq, Repr

/-- The `positions` table, as the list of its rows. -/
abbrev Store := List Position

/-- `SELECT ... FROM positions WHERE symbol=?` (first matching row). -/
def lookupPos (symbol : String) (st : Store) : Option Position :=
  st.find? (fun p => p.symbol == symbol)

/-- `INSERT OR REPLACE INTO positions VALUES (...)` (bot.py lines 131-134):
the conflicting row for the primary key is removed and the new row stored. -/
def upsert (p : Position) (st : Store) : Store :=
  st.filter (fun q => q.symbol != p.symbol) ++ [p]

/-- `UPDATE positions SET high_price=? WHERE symbol=?` (bot.py line 274). -/
def updateHigh (symbol : String) (h : Rat) (st : Store) : Store :=
  st.map (fun q => if q.symbol == symbol then { q with high_price := h } else q)

/-- `DELETE FROM positions WHERE symbol=?` (bot.py line 156). -/
def deletePos (symbol : String) (st : Store) : Store :=
  st.filter (fun q => q.symbol != symbol)

/-- One entry of `exchangeInfo["symbols"]` as read at bot.py lines 251-254. -/
structure SymbolInfo where
  symbol : String
  status : String
  deriving DecidableEq, Repr

/-- One kline as read at bot.py line 266: `c[1]` is the open, `c[4]` the
close. -/
structure Candle where
  openPrice : Rat
  closePrice : Rat
  deriving DecidableEq, Repr

/-- The JSON body `mexc_post` returns for a buy order, as `market_buy`
reads it (bot.py lines 124-129): presence of `"orderId"`, the
`"executedQty"` field (read with default 0), and the list of fill prices
`data["fills"][*]["price"]`. -/
structure BuyResponse where
  hasOrderId : Bool
  executedQty : Rat
  fills : List Rat
  deriving DecidableEq, Repr

/-- Uncaught Python exceptions that can escape the loop body. -/
inductive BotError
  /-- `TypeError`: subscripting the `None` that `mexc_get` returns on
  failure (bot.py line 271). -/
  | typeError
  /-- `KeyError` / `IndexError`: `data["fills"][0]["price"]` on a response
  without fill data (bot.py line 129). -/
  | keyError
  /-- An exception raised inside `mexc_post` itself (bot.py line 110 has
  no try/except and no timeout). -/
  | netError
  deriving DecidableEq, Repr

/-- Observable actions of one pass through the loop body: gateway (MEXC)
HTTP calls and Telegram notifications, in program order. -/
inductive Event
  | callExchangeInfo
  | callKlines (symbol : String)
  | callPrice (symbol : String)
  | callBuy (symbol : String)
  | callSell (symbol : String) (qty : Rat)
  | notifyBuyFailed (symbol : String)
  | notifyBuyExecuted (symbol : String) (qty price : Rat)
  | notifySellExecuted (symbol : String) (reason : ExitReason) (payload : String)
  deriving DecidableEq, Repr

/-- Oracle for one pass of the loop body: the values of the globals read
during the pass and the responses the external world would give. -/
structure Env where
  /-- Global `bot_running`, read at bot.py line 242. -/
  bot_running : Bool
  /-- Global `TARGET_MULTIPLIER`, read at bot.py line 278. -/
  target_multiplier : Rat
  /-- `mexc_get("/api/v3/exchangeInfo")`: `none` models the `None` the
  helper returns on any failure. -/
  exchangeInfo : Option (List SymbolInfo)
  /-- `mexc_get("/api/v3/klines", ...)` per symbol. -/
  klines : String → Option (List Candle)
  /-- `mexc_get("/api/v3/ticker/price", ...)` per symbol: the parsed
  `"price"` field, or `none` when the helper returned `None`. -/
  priceOf : String → Option Rat
  /-- `mexc_post` for a BUY order: `Except.error` models a raise inside
  `requests.post` (network failure), `ok` a returned JSON body. -/
  buyResp : String → Except BotError BuyResponse
  /-- `mexc_post` for a SELL order: `ok` carries the response payload that
  is forwarded verbatim in the exit notification. -/
  sellResp : String → Except BotError String
  /-- `time.time()` during the pass. -/
  now : Rat

/-- Result of a store-mutating fragment: the events it emitted, and either
the resulting store or the uncaught exception together with the store at
the moment of the raise. -/
abbrev Res := List Event × Except (BotError × Store) Store

/-- `market_buy` (bot.py lines 116-137).  Posts the order; if the response
lacks `"orderId"` it notifies failure and returns without writing; else it
reads `executedQty` (default 0) and `fills[0].price` — raising when the
fill list is empty — and upserts the new position with
`high_price = entry_price = fill price`. -/
def market_buy (env : Env) (symbol : String) (st : Store) : Res :=
  match env.buyResp symbol with
  | .error e => ([.callBuy symbol], .error (e, st))
  | .ok data =>
    if data.hasOrderId = false then
      ([.callBuy symbol, .notifyBuyFailed symbol], .ok st)
    else
      match data.fills with
      | [] => ([.callBuy symbol], .error (.keyError, st))
      | price :: _ =>
        ([.callBuy symbol, .notifyBuyExecuted symbol data.executedQty price],
         .ok (upsert ⟨symbol, data.executedQty, price, env.now, price⟩ st))

/-- `market_sell` (bot.py lines 140-159).  If no row exists for the symbol
it returns immediately; otherwise it posts the sell for the stored `qty`,
then — only if the post returned — deletes the row and notifies with the
verbatim response payload.  A raise inside the post propagates with the
row still in the store. -/
def market_sell (env : Env) (symbol : String) (reason : ExitReason)
    (st : Store) : Res :=
  match lookupPos symbol st with
  | none => ([], .ok st)
  | some row =>
    match env.sellResp symbol with
    | .error e => ([.callSell symbol row.qty], .error (e, st))
    | .ok payload =>
      ([.callSell symbol row.qty, .notifySellExecuted symbol reason payload],
       .ok (deletePos symbol st))

/-- The `high = price if price > high` update of bot.py lines 273-276,
also the comparison used implicitly by `UPDATE ... high_price`. -/
def pyMax (high price : Rat) : Rat :=
  if price > high then price else high

/-- The `if/elif` exit chain of bot.py lines 278-283, evaluated on the
locally updated `high`: target first, then trailing stop, then timeout;
`none` when no branch fires. -/
def exitCheck (mult now entry t high price : Rat) : Option ExitReason :=
  if price ≥ entry * mult then some .TARGET
  else if price ≤ high * (1 - TRAIL_PERCENT) then some .TRAIL
  else if now - t ≥ SELL_TIMEOUT then some .TIMEOUT
  else none

/-- Sequencing of two store-mutating fragments: Python control flow, where
an uncaught exception in the first aborts the second. -/
def seqRes (r : Res) (f : Store → Res) : Res :=
  match r with
  | (evs, .error e) => (evs, .error e)
  | (evs, .ok st1) =>
    match f st1 with
    | (evs2, out) => (evs ++ evs2, out)

/-- An event emitted before a fragment runs. -/
def prependEv (e : Event) (r : Res) : Res :=
  (e :: r.1, r.2)

/-- Lines 273-276 of bot.py: write the fresh price to the row's
`high_price` exactly when it exceeds the stored value; otherwise the store
is untouched. -/
def applyHighUpdate (row : Position) (price : Rat) (st : Store) : Store :=
  if price > row.high_price then updateHigh row.symbol price st else st

/-- One iteration of the monitor loop (bot.py lines 270-283) for one
snapshot row: fetch the price — subscripting `None` raises `TypeError`
when the fetch failed — update `high_price` if exceeded, then run the exit
chain on the locally updated high, selling on the first match. -/
def monitorPosition (env : Env) (row : Position) (st : Store) : Res :=
  match env.priceOf row.symbol with
  | none => ([.callPrice row.symbol], .error (.typeError, st))
  | some price =>
    match exitCheck env.target_multiplier env.now row.entry_price
        row.entry_time (pyMax row.high_price price) price with
    | some r =>
      prependEv (.callPrice row.symbol)
        (market_sell env row.symbol r (applyHighUpdate row price st))
    | none => ([.callPrice row.symbol], .ok (applyHighUpdate row price st))

/-- The monitor loop over the row snapshot taken at bot.py line 269; an
uncaught exception aborts the remaining rows. -/
def monitorList (env : Env) (rows : List Position) (st : Store) : Res :=
  match rows with
  | [] => ([], .ok st)
  | row :: rest => seqRes (monitorPosition env row st) (monitorList env rest)

/-- `rows = cur.execute("SELECT * FROM positions")` then the monitor loop:
the snapshot is the whole store at that moment. -/
def monitorAll (env : Env) (st : Store) : Res :=
  monitorList env st st

/-- The buy-candidate test of bot.py line 266:
`if candles and all(c[1] == c[4] for c in candles)` — `None` and the empty
list are both falsy, so a candidate needs a non-empty candle list with
every open equal to its close. -/
def isBuyCandidate : Option (List Candle) → Bool
  | none => false
  | some cs => !cs.isEmpty && cs.all (fun c => c.openPrice == c.closePrice)

/-- The discovery-and-buy loop of bot.py lines 259-267: for each new
symbol fetch klines and call `market_buy` when the candidate test passes;
an uncaught exception in `market_buy` aborts the remaining symbols. -/
def buyPhase (env : Env) (newSyms : List String) (st : Store) : Res :=
  match newSyms with
  | [] => ([], .ok st)
  | s :: rest =>
    if isBuyCandidate (env.klines s) then
      prependEv (.callKlines s) (seqRes (market_buy env s st) (buyPhase env rest))
    else
      prependEv (.callKlines s) (buyPhase env rest st)

/-- Python `str.endswith` as used at bot.py line 253, on the character
data of the strings. -/
def pyEndsWith (s suffix : String) : Bool :=
  suffix.data.isSuffixOf s.data

/-- The set comprehension of bot.py lines 251-254: symbols whose status is
`"TRADING"` and whose identifier ends with `"USDT"`, as a deduplicated
list. -/
def tradableUSDT (infos : List SymbolInfo) : List String :=
  ((infos.filter (fun s => s.status == "TRADING" && pyEndsWith s.symbol "USDT")).map
    (fun s => s.symbol)).dedup

/-- `new = symbols - known` (bot.py line 256): the delta of the filtered
universe against the known set. -/
def newSymbols (known : List String) (infos : List SymbolInfo) : List String :=
  (tradableUSDT infos).filter (fun s => !known.contains s)

/-- Result of one pass through the `while True` body of `trading_loop`:
the emitted events, the resulting store and known-symbols set (or the
uncaught exception with the store it left behind), and the argument of the
`time.sleep` the pass ends with. -/
structure CycleOut where
  events : List Event
  outcome : Except (BotError × Store) (Store × List String)
  sleep : Rat
  deriving Repr

/-- One pass through the body of `trading_loop` (bot.py lines 241-285):
when `bot_running` is false, sleep 2 and skip everything; when the
exchange-info fetch fails, sleep 5 and skip the rest; otherwise filter the
universe, take the delta against the known set, run the buy loop, then the
monitor loop over the post-buy snapshot, and sleep `CHECK_INTERVAL`. -/
def cycle (env : Env) (known : List String) (st : Store) : CycleOut :=
  if env.bot_running = false then
    ⟨[], .ok (st, known), 2⟩
  else
    match env.exchangeInfo with
    | none => ⟨[.callExchangeInfo], .ok (st, known), 5⟩
    | some infos =>
      match seqRes (buyPhase env (newSymbols known infos) st) (monitorAll env) with
      | (evs, .error e) => ⟨.callExchangeInfo :: evs, .error e, CHECK_INTERVAL⟩
      | (evs, .ok st2) =>
        ⟨.callExchangeInfo :: evs, .ok (st2, tradableUSDT infos), CHECK_INTERVAL⟩

/-- Iterating `trading_loop` passes, one oracle per pass; an uncaught
exception terminates the thread, so no later pass runs. -/
def run (envs : List Env) (known : List String) (st : Store) :
    List Event × Except (BotError × Store) (Store × List String) :=
  match envs with
  | [] => ([], .ok (st, known))
  | env :: rest =>
    match cycle env known st with
    | ⟨evs, .error e, _⟩ => (evs, .error e)
    | ⟨evs, .ok (st1, known1), _⟩ =>
      let (evs2, out) := run rest known1 st1
      (evs ++ evs2, out)

/-- The store a fragment leaves behind, whether it returned or raised. -/
def resStore (r : Res) : Store :=
  match r.2 with
  | .ok st => st
  | .error (_, st) => st

/-- The store a whole pass leaves behind, whether it returned or raised. -/
def cycleStore (c : CycleOut) : Store :=
  match c.outcome with
  | .ok (st, _) => st
  | .error (_, st) => st

/-- The store a whole thread run leaves behind, whether it returned or the
thread died on an exception. -/
def runStore
    (r : List Event × Except (BotError × Store) (Store × List String)) : Store :=
  match r.2 with
  | .ok (st2, _) => st2
  | .error (_, st2) => st2

/-- The stored `high_price` after a sequence of observed prices: the
update of bot.py lines 273-276 folded over the observations, starting from
the value the row was created with. -/
def highAfter (entry : Rat) (prices : List Rat) : Rat :=
  prices.foldl pyMax entry

/-- At most one row per symbol: the primary-key invariant of the
`positions` table. -/
def symbolsUnique (st : Store) : Prop :=
  (st.map Position.symbol).Nodup

/-- A baseline oracle for concrete scenarios: engine running, multiplier
10 (the default of bot.py line 51), empty tradable universe, every
external call failing. -/
def env0 : Env where
  bot_running := true
  target_multiplier := 10
  exchangeInfo := some []
  klines := fun _ => none
  priceOf := fun _ => none
  buyResp := fun _ => .error .netError
  sellResp := fun _ => .error .netError
  now := 1000

/-- A pass that begins with `bot_running` false. -/
def envPaused : Env := { env0 with bot_running := false }

/-- Scenario: two open positions, the price fetch for the first one
failing while the second would succeed. -/
def posA1 : Position := ⟨"AUSDT", 2, 4, 0, 4⟩

def posB1 : Position := ⟨"BUSDT", 3, 5, 0, 5⟩

def envC1 : Env :=
  { env0 with priceOf := fun s => if s == "BUSDT" then some 5 else none }

/-- Scenario: a position whose target condition fires at price 50. -/
def posC3 : Position := ⟨"CUSDT", 2, 4, 0, 100⟩

def envC3err : Env := { env0 with priceOf := fun _ => some 50 }

def envC3ok : Env :=
  { env0 with priceOf := fun _ => some 50, sellResp := fun _ => .ok "filled" }

/-- Scenario: a symbol with an open position in the store is re-discovered
(fresh process, empty known set) with flat candles; the price fetch then
fails, which stops the pass after the buy already happened. -/
def posC4 : Position := ⟨"NEWUSDT", 2, 4, 0, 4⟩

def infosC4 : List SymbolInfo := [⟨"NEWUSDT", "TRADING"⟩]

def envC4 : Env :=
  { env0 with
    exchangeInfo := some infosC4
    klines := fun _ => some [⟨7, 7⟩]
    buyResp := fun _ => .ok ⟨true, 3, [5]⟩ }

/-- Buy responses: an orderId with no fill data, a rejection, a fill. -/
def envC7nofill : Env := { env0 with buyResp := fun _ => .ok ⟨true, 3, []⟩ }

def envC7rej : Env := { env0 with buyResp := fun _ => .ok ⟨false, 0, []⟩ }

def envC7fill : Env :=
  { env0 with buyResp := fun _ => .ok ⟨true, 3, [5]⟩, now := 77 }

/-- A universe with one TRADING USDT pair, one non-USDT pair and one
halted USDT pair. -/
def infosC9 : List SymbolInfo :=
  [⟨"AAAUSDT", "TRADING"⟩, ⟨"BBBBTC", "TRADING"⟩, ⟨"CCCUSDT", "HALT"⟩]

def envC9 : Env := { env0 with exchangeInfo := some infosC9 }

/-- A held position (entry 100, high 200) and oracles driving each exit
branch of the monitor chain, plus one that holds. -/
def posW : Position := ⟨"WUSDT", 2, 100, 0, 200⟩

def envWtarget : Env :=
  { env0 with
    priceOf := fun _ => some 1000
    sellResp := fun _ => .ok "sold"
    now := 50 }

def envWtrail : Env :=
  { env0 with
    priceOf := fun _ => some 169
    sellResp := fun _ => .ok "sold"
    now := 50 }

def envWtime : Env :=
  { env0 with
    priceOf := fun _ => some 171
    sellResp := fun _ => .ok "sold"
    now := 421 }

def envWhold : Env :=
  { env0 with
    priceOf := fun _ => some 180
    sellResp := fun _ => .ok "sold"
    now := 50 }

end BotPy

namespace BotPy

/-! Store lemmas: behaviour of the sqlite operations on the row list. -/

theorem lookupPos_upsert_self (p : Position) (st : Store) :
    lookupPos p.symbol (upsert p st) = some p := by
  simp [lookupPos, upsert]

theorem lookupPos_deletePos_self (s : String) (st : Store) :
    lookupPos s (deletePos s st) = none := by
  simp [lookupPos, deletePos, List.find?_eq_none]

theorem lookupPos_updateHigh_self (s : String) (x : Rat) (st : Store) :
    lookupPos s (updateHigh s x st) =
      (lookupPos s st).map (fun r => { r with high_price := x }) := by
  induction st with
  | nil => rfl
  | cons q l ih =>
    by_cases h : q.symbol = s
    · simp [lookupPos, updateHigh, h]
    · simp [lookupPos, updateHigh, h] at ih ⊢
      exact ih

theorem upsert_upsert_same_filter (p q : Position) (st : Store)
    (h : q.symbol = p.symbol) :
    (upsert q (upsert p st)).filter (fun r => r.symbol == q.symbol) = [q] := by
  simp only [upsert, List.filter_append, List.filter_filter]
  rw [List.filter_eq_nil_iff.mpr, List.filter_eq_nil_iff.mpr]
  · simp
  · intro a _
    simp [h]
  · intro a ha
    simp only [List.mem_filter] at ha
    simp_all

theorem symbolsUnique_upsert (p : Position) (st : Store)
    (h : symbolsUnique st) : symbolsUnique (upsert p st) := by
  unfold symbolsUnique upsert
  rw [List.map_append]
  apply List.Nodup.append
  · exact ((List.filter_sublist st).map Position.symbol).nodup h
  · simp
  · intro a ha hb
    simp only [List.mem_map, List.mem_filter] at ha
    obtain ⟨r, ⟨_, hr⟩, rfl⟩ := ha
    simp only [List.map_cons, List.map_nil, List.mem_singleton] at hb
    simp [hb] at hr

theorem symbolsUnique_updateHigh (s : String) (x : Rat) (st : Store)
    (h : symbolsUnique st) : symbolsUnique (updateHigh s x st) := by
  unfold symbolsUnique updateHigh
  rw [List.map_map]
  have : ∀ q ∈ st, (Position.symbol ∘ fun q =>
      if q.symbol == s then { q with high_price := x } else q) q = q.symbol := by
    intro q _
    by_cases hq : q.symbol = s <;> simp [hq]
  rw [List.map_congr_left this]
  exact h

theorem symbolsUnique_deletePos (s : String) (st : Store)
    (h : symbolsUnique st) : symbolsUnique (deletePos s st) := by
  unfold symbolsUnique deletePos
  exact ((List.filter_sublist st).map Position.symbol).nodup h

end BotPy

namespace BotPy

/-! Preservation of the primary-key invariant through every engine
operation. -/

theorem resStore_seqRes (r : Res) (f : Store → Res)
    (h1 : symbolsUnique (resStore r))
    (h2 : ∀ st, symbolsUnique st → symbolsUnique (resStore (f st))) :
    symbolsUnique (resStore (seqRes r f)) := by
  rcases r with ⟨evs, out⟩
  cases out with
  | error e => simpa [seqRes, resStore] using h1
  | ok st1 =>
    have h3 := h2 st1 (by simpa [resStore] using h1)
    rcases hf : f st1 with ⟨evs2, out2⟩
    rw [hf] at h3
    cases out2 with
    | error e2 =>
      rcases e2 with ⟨e2, st2⟩
      simpa [seqRes, hf, resStore] using h3
    | ok st2 => simpa [seqRes, hf, resStore] using h3

theorem resStore_prependEv (e : Event) (r : Res) :
    resStore (prependEv e r) = resStore r := rfl

theorem symbolsUnique_market_buy (env : Env) (s : String) (st : Store)
    (h : symbolsUnique st) : symbolsUnique (resStore (market_buy env s st)) := by
  unfold market_buy
  cases env.buyResp s with
  | error e => simpa [resStore] using h
  | ok data =>
    by_cases ho : data.hasOrderId = false
    · simp only [ho, if_true]
      simpa [resStore] using h
    · simp only [ho, if_false]
      cases data.fills with
      | nil => simpa [resStore] using h
      | cons price rest => simpa [resStore] using symbolsUnique_upsert _ _ h

theorem symbolsUnique_market_sell (env : Env) (s : String) (r : ExitReason)
    (st : Store) (h : symbolsUnique st) :
    symbolsUnique (resStore (market_sell env s r st)) := by
  unfold market_sell
  cases lookupPos s st with
  | none => simpa [resStore] using h
  | some row =>
    cases env.sellResp s with
    | error e => simpa [resStore] using h
    | ok payload => simpa [resStore] using symbolsUnique_deletePos s st h

theorem symbolsUnique_applyHighUpdate (row : Position) (price : Rat)
    (st : Store) (h : symbolsUnique st) :
    symbolsUnique (applyHighUpdate row price st) := by
  unfold applyHighUpdate
  split
  · exact symbolsUnique_updateHigh _ _ _ h
  · exact h

theorem symbolsUnique_monitorPosition (env : Env) (row : Position) (st : Store)
    (h : symbolsUnique st) :
    symbolsUnique (resStore (monitorPosition env row st)) := by
  rcases hp : env.priceOf row.symbol with _ | price
  · simpa [monitorPosition, hp, resStore] using h
  · rcases hec : exitCheck env.target_multiplier env.now row.entry_price
        row.entry_time (pyMax row.high_price price) price with _ | r
    · simpa [monitorPosition, hp, hec, resStore] using
        symbolsUnique_applyHighUpdate row price st h
    · simp only [monitorPosition, hp, hec]
      rw [resStore_prependEv]
      exact symbolsUnique_market_sell env row.symbol r _
        (symbolsUnique_applyHighUpdate row price st h)

theorem symbolsUnique_monitorList (env : Env) (rows : List Position) :
    ∀ st : Store, symbolsUnique st →
      symbolsUnique (resStore (monitorList env rows st)) := by
  induction rows with
  | nil => intro st h; simpa [monitorList, resStore] using h
  | cons row rest ih =>
    intro st h
    unfold monitorList
    exact resStore_seqRes _ _ (symbolsUnique_monitorPosition env row st h) ih

theorem symbolsUnique_buyPhase (env : Env) (syms : List String) :
    ∀ st : Store, symbolsUnique st →
      symbolsUnique (resStore (buyPhase env syms st)) := by
  induction syms with
  | nil => intro st h; simpa [buyPhase, resStore] using h
  | cons s rest ih =>
    intro st h
    unfold buyPhase
    split
    · rw [resStore_prependEv]
      exact resStore_seqRes _ _ (symbolsUnique_market_buy env s st h) ih
    · rw [resStore_prependEv]
      exact ih st h

theorem symbolsUnique_cycle (env : Env) (known : List String) (st : Store)
    (h : symbolsUnique st) : symbolsUnique (cycleStore (cycle env known st)) := by
  by_cases hb : env.bot_running = false
  · simpa [cycle, hb, cycleStore] using h
  · rcases hinfo : env.exchangeInfo with _ | infos
    · simpa [cycle, hb, hinfo, cycleStore] using h
    · have h1 := resStore_seqRes
        (buyPhase env (newSymbols known infos) st) (monitorAll env)
        (symbolsUnique_buyPhase env _ st h)
        (fun st1 h1 => symbolsUnique_monitorList env st1 st1 h1)
      rcases hseq : seqRes (buyPhase env (newSymbols known infos) st)
          (monitorAll env) with ⟨evs, out⟩
      rw [hseq] at h1
      cases out with
      | error e =>
        rcases e with ⟨e, st2⟩
        simp only [resStore] at h1
        simpa [cycle, hb, hinfo, hseq, cycleStore] using h1
      | ok st2 =>
        simp only [resStore] at h1
        simpa [cycle, hb, hinfo, hseq, cycleStore] using h1

theorem symbolsUnique_run (envs : List Env) :
    ∀ (known : List String) (st : Store), symbolsUnique st →
      symbolsUnique (runStore (run envs known st)) := by
  induction envs with
  | nil => intro known st h; simpa [run, runStore] using h
  | cons env rest ih =>
    intro known st h
    have h1 := symbolsUnique_cycle env known st h
    rcases hc : cycle env known st with ⟨evs, out, sl⟩
    rw [hc] at h1
    cases out with
    | error e =>
      rcases e with ⟨e, st2⟩
      simp only [cycleStore] at h1
      simpa [run, hc, runStore] using h1
    | ok p =>
      obtain ⟨st1, known1⟩ := p
      simp only [cycleStore] at h1
      have h2 := ih known1 st1 h1
      rcases hr : run rest known1 st1 with ⟨evs2, out2⟩
      rw [hr] at h2
      cases out2 with
      | error e2 =>
        rcases e2 with ⟨e2, st2⟩
        simp only [runStore] at h2
        simpa [run, hc, hr, runStore] using h2
      | ok p2 =>
        simp only [runStore] at h2
        simpa [run, hc, hr, runStore] using h2

end BotPy

namespace BotPy

/-! Where events can come from, and how one monitor step behaves. -/

theorem mem_events_seqRes (r : Res) (f : Store → Res) (e : Event)
    (h : e ∈ (seqRes r f).1) :
    e ∈ r.1 ∨ ∃ st1, r.2 = .ok st1 ∧ e ∈ (f st1).1 := by
  rcases r with ⟨evs, out⟩
  cases out with
  | error er => left; simpa [seqRes] using h
  | ok st1 =>
    rcases hf : f st1 with ⟨evs2, out2⟩
    have h2 : e ∈ evs ∨ e ∈ evs2 := by simpa [seqRes, hf] using h
    rcases h2 with h2 | h2
    · exact .inl h2
    · exact .inr ⟨st1, rfl, by rw [hf]; exact h2⟩

theorem callKlines_not_mem_market_sell (env : Env) (s : String) (r : ExitReason)
    (st : Store) (t : String) :
    Event.callKlines t ∉ (market_sell env s r st).1 := by
  unfold market_sell
  cases lookupPos s st with
  | none => simp
  | some row =>
    cases env.sellResp s with
    | error e => simp
    | ok p => simp

theorem callBuy_not_mem_market_sell (env : Env) (s : String) (r : ExitReason)
    (st : Store) (t : String) :
    Event.callBuy t ∉ (market_sell env s r st).1 := by
  unfold market_sell
  cases lookupPos s st with
  | none => simp
  | some row =>
    cases env.sellResp s with
    | error e => simp
    | ok p => simp

theorem callKlines_not_mem_market_buy (env : Env) (s : String) (st : Store)
    (t : String) :
    Event.callKlines t ∉ (market_buy env s st).1 := by
  rcases hb : env.buyResp s with e | data
  · simp [market_buy, hb]
  · by_cases ho : data.hasOrderId = false
    · simp [market_buy, hb, ho]
    · rcases hf : data.fills with _ | ⟨p, rest⟩
      · simp [market_buy, hb, ho, hf]
      · simp [market_buy, hb, ho, hf]

theorem callBuy_mem_market_buy (env : Env) (s : String) (st : Store)
    (t : String) (h : Event.callBuy t ∈ (market_buy env s st).1) : t = s := by
  rcases hb : env.buyResp s with e | data
  · simpa [market_buy, hb] using h
  · by_cases ho : data.hasOrderId = false
    · simpa [market_buy, hb, ho] using h
    · rcases hf : data.fills with _ | ⟨p, rest⟩
      · simpa [market_buy, hb, ho, hf] using h
      · simpa [market_buy, hb, ho, hf] using h

theorem callKlines_not_mem_monitorPosition (env : Env) (row : Position)
    (st : Store) (t : String) :
    Event.callKlines t ∉ (monitorPosition env row st).1 := by
  rcases hp : env.priceOf row.symbol with _ | price
  · simp [monitorPosition, hp]
  · rcases hec : exitCheck env.target_multiplier env.now row.entry_price
        row.entry_time (pyMax row.high_price price) price with _ | r
    · simp [monitorPosition, hp, hec]
    · simp only [monitorPosition, hp, hec, prependEv, List.mem_cons]
      rintro (h | h)
      · cases h
      · exact callKlines_not_mem_market_sell env row.symbol r _ t h

theorem callBuy_not_mem_monitorPosition (env : Env) (row : Position)
    (st : Store) (t : String) :
    Event.callBuy t ∉ (monitorPosition env row st).1 := by
  rcases hp : env.priceOf row.symbol with _ | price
  · simp [monitorPosition, hp]
  · rcases hec : exitCheck env.target_multiplier env.now row.entry_price
        row.entry_time (pyMax row.high_price price) price with _ | r
    · simp [monitorPosition, hp, hec]
    · simp only [monitorPosition, hp, hec, prependEv, List.mem_cons]
      rintro (h | h)
      · cases h
      · exact callBuy_not_mem_market_sell env row.symbol r _ t h

theorem callKlines_not_mem_monitorList (env : Env) (rows : List Position) :
    ∀ (st : Store) (t : String),
      Event.callKlines t ∉ (monitorList env rows st).1 := by
  induction rows with
  | nil => intro st t; simp [monitorList]
  | cons row rest ih =>
    intro st t h
    simp only [monitorList] at h
    rcases mem_events_seqRes _ _ _ h with h2 | ⟨st1, _, h2⟩
    · exact callKlines_not_mem_monitorPosition env row st t h2
    · exact ih st1 t h2

theorem callBuy_not_mem_monitorList (env : Env) (rows : List Position) :
    ∀ (st : Store) (t : String),
      Event.callBuy t ∉ (monitorList env rows st).1 := by
  induction rows with
  | nil => intro st t; simp [monitorList]
  | cons row rest ih =>
    intro st t h
    simp only [monitorList] at h
    rcases mem_events_seqRes _ _ _ h with h2 | ⟨st1, _, h2⟩
    · exact callBuy_not_mem_monitorPosition env row st t h2
    · exact ih st1 t h2

theorem callKlines_mem_buyPhase (env : Env) (syms : List String) :
    ∀ (st : Store) (t : String),
      Event.callKlines t ∈ (buyPhase env syms st).1 → t ∈ syms := by
  induction syms with
  | nil => intro st t h; simp [buyPhase] at h
  | cons s rest ih =>
    intro st t h
    unfold buyPhase at h
    split at h
    · simp only [prependEv, List.mem_cons] at h
      rcases h with h | h
      · cases h; exact List.mem_cons_self s rest
      · rcases mem_events_seqRes _ _ _ h with h2 | ⟨st1, _, h2⟩
        · exact absurd h2 (callKlines_not_mem_market_buy env s st t)
        · exact List.mem_cons_of_mem s (ih st1 t h2)
    · simp only [prependEv, List.mem_cons] at h
      rcases h with h | h
      · cases h; exact List.mem_cons_self s rest
      · exact List.mem_cons_of_mem s (ih st t h)

theorem callBuy_mem_buyPhase (env : Env) (syms : List String) :
    ∀ (st : Store) (t : String),
      Event.callBuy t ∈ (buyPhase env syms st).1 → t ∈ syms := by
  induction syms with
  | nil => intro st t h; simp [buyPhase] at h
  | cons s rest ih =>
    intro st t h
    unfold buyPhase at h
    split at h
    · simp only [prependEv, List.mem_cons] at h
      rcases h with h | h
      · cases h
      · rcases mem_events_seqRes _ _ _ h with h2 | ⟨st1, _, h2⟩
        · rw [callBuy_mem_market_buy env s st t h2]
          exact List.mem_cons_self s rest
        · exact List.mem_cons_of_mem s (ih st1 t h2)
    · simp only [prependEv, List.mem_cons] at h
      rcases h with h | h
      · cases h
      · exact List.mem_cons_of_mem s (ih st t h)

theorem mem_tradableUSDT (infos : List SymbolInfo) (s : String)
    (h : s ∈ tradableUSDT infos) :
    pyEndsWith s "USDT" = true ∧
      ∃ i, i ∈ infos ∧ i.symbol = s ∧ i.status = "TRADING" := by
  unfold tradableUSDT at h
  rw [List.mem_dedup] at h
  rcases List.mem_map.mp h with ⟨i, hi, rfl⟩
  rcases List.mem_filter.mp hi with ⟨hmem, hcond⟩
  rw [Bool.and_eq_true, beq_iff_eq] at hcond
  exact ⟨hcond.2, i, hmem, rfl, hcond.1⟩

theorem mem_newSymbols (known : List String) (infos : List SymbolInfo)
    (s : String) (h : s ∈ newSymbols known infos) : s ∈ tradableUSDT infos :=
  (List.mem_filter.mp h).1

end BotPy

namespace BotPy

/-! One monitor step, and the high-water fold over a price sequence. -/

theorem market_sell_found_ok (env : Env) (s : String) (reason : ExitReason)
    (st : Store) (row : Position) (payload : String)
    (hrow : lookupPos s st = some row) (hok : env.sellResp s = .ok payload) :
    market_sell env s reason st =
      ([.callSell s row.qty, .notifySellExecuted s reason payload],
       .ok (deletePos s st)) := by
  simp [market_sell, hrow, hok]

theorem market_sell_found_error (env : Env) (s : String) (reason : ExitReason)
    (st : Store) (row : Position) (e : BotError)
    (hrow : lookupPos s st = some row) (herr : env.sellResp s = .error e) :
    market_sell env s reason st = ([.callSell s row.qty], .error (e, st)) := by
  simp [market_sell, hrow, herr]

theorem monitorPosition_exit (env : Env) (row : Position) (st : Store)
    (price : Rat) (r : ExitReason)
    (hp : env.priceOf row.symbol = some price)
    (hec : exitCheck env.target_multiplier env.now row.entry_price
      row.entry_time (pyMax row.high_price price) price = some r) :
    monitorPosition env row st =
      prependEv (.callPrice row.symbol)
        (market_sell env row.symbol r (applyHighUpdate row price st)) := by
  simp [monitorPosition, hp, hec]

theorem monitorPosition_hold (env : Env) (row : Position) (st : Store)
    (price : Rat)
    (hp : env.priceOf row.symbol = some price)
    (hec : exitCheck env.target_multiplier env.now row.entry_price
      row.entry_time (pyMax row.high_price price) price = none) :
    monitorPosition env row st =
      ([.callPrice row.symbol], .ok (applyHighUpdate row price st)) := by
  simp [monitorPosition, hp, hec]

theorem lookupPos_applyHighUpdate_self (row : Position) (price : Rat)
    (st : Store) (hrow : lookupPos row.symbol st = some row) :
    lookupPos row.symbol (applyHighUpdate row price st) =
      some { row with high_price := pyMax row.high_price price } := by
  unfold applyHighUpdate pyMax
  by_cases h : price > row.high_price
  · simp [h, lookupPos_updateHigh_self, hrow]
  · simp only [h, if_false, hrow]

theorem applyHighUpdate_qty (row : Position) (price : Rat) (st : Store)
    (hrow : lookupPos row.symbol st = some row) :
    ∃ row2, lookupPos row.symbol (applyHighUpdate row price st) = some row2 ∧
      row2.qty = row.qty := by
  exact ⟨_, lookupPos_applyHighUpdate_self row price st hrow, rfl⟩

theorem applyHighUpdate_no_change (row : Position) (price : Rat) (st : Store)
    (h : ¬ price > row.high_price) : applyHighUpdate row price st = st :=
  if_neg h

theorem le_pyMax_left (h p : Rat) : h ≤ pyMax h p := by
  unfold pyMax
  split
  · linarith
  · exact le_refl h

theorem le_pyMax_right (h p : Rat) : p ≤ pyMax h p := by
  unfold pyMax
  split
  · exact le_refl p
  · linarith

theorem highAfter_nil (entry : Rat) : highAfter entry [] = entry := rfl

theorem highAfter_cons (entry p : Rat) (ps : List Rat) :
    highAfter entry (p :: ps) = highAfter (pyMax entry p) ps := rfl

theorem highAfter_append_singleton (entry p : Rat) (ps : List Rat) :
    highAfter entry (ps ++ [p]) = pyMax (highAfter entry ps) p := by
  simp [highAfter, List.foldl_append]

theorem entry_le_highAfter (entry : Rat) (prices : List Rat) :
    entry ≤ highAfter entry prices := by
  induction prices generalizing entry with
  | nil => exact le_refl entry
  | cons p ps ih =>
    rw [highAfter_cons]
    exact le_trans (le_pyMax_left entry p) (ih (pyMax entry p))

theorem mem_le_highAfter (entry : Rat) (prices : List Rat) :
    ∀ p ∈ prices, p ≤ highAfter entry prices := by
  induction prices generalizing entry with
  | nil => intro p hp; cases hp
  | cons q ps ih =>
    intro p hp
    rw [highAfter_cons]
    rcases List.mem_cons.mp hp with rfl | hp
    · exact le_trans (le_pyMax_right entry p) (entry_le_highAfter _ ps)
    · exact ih (pyMax entry q) p hp

theorem highAfter_eq_entry_or_mem (entry : Rat) (prices : List Rat) :
    highAfter entry prices = entry ∨ highAfter entry prices ∈ prices := by
  induction prices generalizing entry with
  | nil => exact .inl rfl
  | cons p ps ih =>
    rw [highAfter_cons]
    rcases ih (pyMax entry p) with h | h
    · rw [h]
      unfold pyMax
      split
      · exact .inr (List.mem_cons_self p ps)
      · exact .inl rfl
    · exact .inr (List.mem_cons_of_mem p h)

end BotPy

namespace BotPy

/-! Cycle-level helpers. -/

theorem upsert_filter_self (p : Position) (st : Store) :
    (upsert p st).filter (fun r => r.symbol == p.symbol) = [p] := by
  simp only [upsert, List.filter_append, List.filter_filter]
  rw [List.filter_eq_nil_iff.mpr]
  · simp
  · intro a ha
    simp_all

theorem cycle_events_eq (env : Env) (known : List String) (st : Store)
    (infos : List SymbolInfo) (hb : ¬ env.bot_running = false)
    (hinfo : env.exchangeInfo = some infos) :
    (cycle env known st).events =
      Event.callExchangeInfo ::
        (seqRes (buyPhase env (newSymbols known infos) st) (monitorAll env)).1 := by
  rcases hseq : seqRes (buyPhase env (newSymbols known infos) st)
      (monitorAll env) with ⟨evs, out⟩
  cases out <;> simp [cycle, hb, hinfo, hseq]

theorem callKlines_mem_cycle (env : Env) (known : List String) (st : Store)
    (u : String) (h : Event.callKlines u ∈ (cycle env known st).events) :
    ∃ infos, env.exchangeInfo = some infos ∧ u ∈ tradableUSDT infos := by
  by_cases hb : env.bot_running = false
  · simp [cycle, hb] at h
  · rcases hinfo : env.exchangeInfo with _ | infos
    · simp [cycle, hb, hinfo] at h
    · refine ⟨infos, rfl, ?_⟩
      rw [cycle_events_eq env known st infos hb hinfo] at h
      rcases List.mem_cons.mp h with h | h
      · cases h
      · rcases mem_events_seqRes _ _ _ h with h2 | ⟨st1, _, h2⟩
        · exact mem_newSymbols known infos u
            (callKlines_mem_buyPhase env (newSymbols known infos) st u h2)
        · exact absurd h2 (callKlines_not_mem_monitorList env st1 st1 u)

theorem callBuy_mem_cycle (env : Env) (known : List String) (st : Store)
    (u : String) (h : Event.callBuy u ∈ (cycle env known st).events) :
    ∃ infos, env.exchangeInfo = some infos ∧ u ∈ tradableUSDT infos := by
  by_cases hb : env.bot_running = false
  · simp [cycle, hb] at h
  · rcases hinfo : env.exchangeInfo with _ | infos
    · simp [cycle, hb, hinfo] at h
    · refine ⟨infos, rfl, ?_⟩
      rw [cycle_events_eq env known st infos hb hinfo] at h
      rcases List.mem_cons.mp h with h | h
      · cases h
      · rcases mem_events_seqRes _ _ _ h with h2 | ⟨st1, _, h2⟩
        · exact mem_newSymbols known infos u
            (callBuy_mem_buyPhase env (newSymbols known infos) st u h2)
        · exact absurd h2 (callBuy_not_mem_monitorList env st1 st1 u)

theorem cycle_known_of_ok (env : Env) (known : List String) (st : Store)
    (infos : List SymbolInfo) (st2 : Store) (known2 : List String)
    (hb : ¬ env.bot_running = false) (hinfo : env.exchangeInfo = some infos)
    (hout : (cycle env known st).outcome = .ok (st2, known2)) :
    known2 = tradableUSDT infos := by
  rcases hseq : seqRes (buyPhase env (newSymbols known infos) st)
      (monitorAll env) with ⟨evs, out⟩
  cases out with
  | error e => simp [cycle, hb, hinfo, hseq] at hout
  | ok stx =>
    simp [cycle, hb, hinfo, hseq] at hout
    exact hout.2.symm

theorem run_paused_prefix (paused : List Env) :
    ∀ (envs : List Env) (known : List String) (st : Store),
      (∀ e ∈ paused, e.bot_running = false) →
      run (paused ++ envs) known st = run envs known st := by
  induction paused with
  | nil => intro envs known st _; rfl
  | cons e rest ih =>
    intro envs known st hP
    have hc : cycle e known st = ⟨[], .ok (st, known), 2⟩ := by
      simp [cycle, hP e (List.mem_cons_self e rest)]
    rw [List.cons_append]
    rcases hr : run (rest ++ envs) known st with ⟨evs2, out2⟩
    have hrest := ih envs known st (fun x hx => hP x (List.mem_cons_of_mem e hx))
    rw [hr] at hrest
    simp [run, hc, hr, hrest]

end BotPy

namespace BotPy

/-! The claims. -/

/-- C1: the claim says a failed price fetch for one position leaves the
other positions evaluated and the loop alive.  The code disagrees: with
two open positions and the fetch for the first returning `None`,
subscripting `None` raises an uncaught `TypeError`, the second position's
price is never fetched, and the thread dies — a two-pass run never reaches
the second pass.  The store is left as it was (no row deleted). -/
theorem price_fetch_failure_kills_engine :
    (cycle envC1 [] [posA1, posB1]).outcome = .error (.typeError, [posA1, posB1]) ∧
    Event.callPrice "AUSDT" ∈ (cycle envC1 [] [posA1, posB1]).events ∧
    Event.callPrice "BUSDT" ∉ (cycle envC1 [] [posA1, posB1]).events ∧
    run [envC1, envC1] [] [posA1, posB1] =
      ([.callExchangeInfo, .callPrice "AUSDT"],
       .error (.typeError, [posA1, posB1])) := by
  decide

/-- C3: when the sell post returns a payload the row is deleted; when the
post itself raises, the row is kept — but the exception is uncaught, so
the engine thread dies and the position is never re-evaluated: a two-pass
run fetches the price exactly once and ends in the error. -/
theorem sell_error_keeps_row_but_kills_engine :
    (market_sell envC3ok "CUSDT" .TARGET [posC3]).2 = .ok [] ∧
    market_sell envC3err "CUSDT" .TARGET [posC3] =
      ([.callSell "CUSDT" 2], .error (.netError, [posC3])) ∧
    run [envC3err, envC3err] ["CUSDT"] [posC3] =
      ([.callExchangeInfo, .callPrice "CUSDT", .callSell "CUSDT" 2],
       .error (.netError, [posC3])) := by
  refine ⟨by decide, by decide, ?_⟩
  norm_num [run, cycle, seqRes, buyPhase, monitorAll, monitorList, monitorPosition,
    market_sell, market_buy, exitCheck, pyMax, applyHighUpdate, prependEv, lookupPos,
    deletePos, updateHigh, upsert, tradableUSDT, newSymbols, pyEndsWith, isBuyCandidate,
    envC3err, posC3, env0, SELL_TIMEOUT, TRAIL_PERCENT, CHECK_INTERVAL]

/-- C7: a rejection (no orderId) notifies failure and writes nothing, and
a fill writes the position with `entry_price` = fill price, `quantity` =
executed quantity and `high_price` = entry price; but a response carrying
an orderId with no fill data raises an uncaught `KeyError` instead of
notifying — no failure notification, no write, engine thread dead. -/
theorem buy_response_handling :
    market_buy envC7nofill "XUSDT" [] =
      ([.callBuy "XUSDT"], .error (.keyError, [])) ∧
    market_buy envC7rej "XUSDT" [] =
      ([.callBuy "XUSDT", .notifyBuyFailed "XUSDT"], .ok []) ∧
    market_buy envC7fill "XUSDT" [] =
      ([.callBuy "XUSDT", .notifyBuyExecuted "XUSDT" 3 5],
       .ok [⟨"XUSDT", 3, 5, 77, 5⟩]) := by
  decide

/-- C10: closing a symbol with no Position row is a no-op: no gateway
call, no notification, no deletion, the store unchanged. -/
theorem sell_without_position_is_noop (env : Env) (symbol : String)
    (reason : ExitReason) (st : Store) (h : lookupPos symbol st = none) :
    market_sell env symbol reason st = ([], .ok st) := by
  simp [market_sell, h]

theorem sell_without_position_is_noop_witness :
    market_sell env0 "GHOSTUSDT" .TIMEOUT [posA1] = ([], .ok [posA1]) :=
  sell_without_position_is_noop env0 "GHOSTUSDT" .TIMEOUT [posA1] (by decide)

/-- C4 fails on the code: `market_buy` has no store-existence precondition.
A fresh process (empty known set) re-discovers a symbol that already has a
Position row, and a market buy is submitted for it anyway. -/
theorem open_despite_existing_position :
    lookupPos "NEWUSDT" [posC4] = some posC4 ∧
    Event.callBuy "NEWUSDT" ∈ (cycle envC4 [] [posC4]).events := by
  decide

/-- C4 (amended): a buy submission does not consult the store — the order
is posted for any store contents; duplicate opens do not crash because the
successful write is an upsert leaving exactly one row for the symbol; and
no buy happens in a pass that begins with `bot_running` false (the whole
pass emits no events). -/
theorem open_position_unguarded (env : Env) (known : List String)
    (symbol : String) (st : Store) :
    Event.callBuy symbol ∈ (market_buy env symbol st).1 ∧
    (env.bot_running = false → (cycle env known st).events = []) ∧
    (∀ (data : BuyResponse) (p : Rat) (ps : List Rat),
      env.buyResp symbol = .ok data → data.hasOrderId = true →
      data.fills = p :: ps →
      (market_buy env symbol st).2 =
        .ok (upsert ⟨symbol, data.executedQty, p, env.now, p⟩ st) ∧
      ((upsert ⟨symbol, data.executedQty, p, env.now, p⟩ st).filter
        (fun r => r.symbol == symbol)).length = 1) := by
  refine ⟨?_, ?_, ?_⟩
  · rcases hb : env.buyResp symbol with e | data
    · simp [market_buy, hb]
    · by_cases ho : data.hasOrderId = false
      · simp [market_buy, hb, ho]
      · rcases hf : data.fills with _ | ⟨p, ps⟩
        · simp [market_buy, hb, ho, hf]
        · simp [market_buy, hb, ho, hf]
  · intro hb
    simp [cycle, hb]
  · intro data p ps hb ho hf
    constructor
    · simp [market_buy, hb, ho, hf]
    · have := upsert_filter_self ⟨symbol, data.executedQty, p, env.now, p⟩ st
      rw [this]
      rfl

theorem open_position_unguarded_witness :
    Event.callBuy "XUSDT" ∈ (market_buy envC7fill "XUSDT" []).1 ∧
    (cycle envPaused [] []).events = [] ∧
    ((upsert ⟨"XUSDT", 3, 5, 77, 5⟩ []).filter
      (fun r => r.symbol == "XUSDT")).length = 1 := by
  have h1 := open_position_unguarded envC7fill [] "XUSDT" []
  have h2 := open_position_unguarded envPaused [] "XUSDT" []
  exact ⟨h1.1, h2.2.1 rfl, (h1.2.2 ⟨true, 3, [5]⟩ 5 [] rfl rfl rfl).2⟩

/-- C8: a pass that begins with `bot_running` false makes no gateway calls
and changes nothing — its event list is empty, the store and known set are
returned as they were, and it sleeps the short fixed interval 2 — and a
run beginning with any block of such paused passes equals the run without
them: the engine resumes with a full fresh pass. -/
theorem paused_cycle_skips_body (paused envs : List Env)
    (known : List String) (st : Store)
    (hP : ∀ e ∈ paused, e.bot_running = false) :
    (∀ e ∈ paused, cycle e known st = ⟨[], .ok (st, known), 2⟩) ∧
    run (paused ++ envs) known st = run envs known st :=
  ⟨fun e he => by simp [cycle, hP e he],
   run_paused_prefix paused envs known st hP⟩

theorem paused_cycle_skips_body_witness :
    cycle envPaused [] [posA1] = ⟨[], .ok ([posA1], []), 2⟩ ∧
    run ([envPaused] ++ [env0]) [] [posA1] = run [env0] [] [posA1] := by
  have h := paused_cycle_skips_body [envPaused] [env0] [] [posA1]
    (by intro e he; rw [List.mem_singleton] at he; subst he; rfl)
  exact ⟨h.1 envPaused (List.mem_singleton.mpr rfl), h.2⟩

end BotPy

namespace BotPy

/-- C2: for an open position whose price fetch succeeds and whose sell
gateway answers, the exit chain is evaluated in the fixed order Target,
then Trailing stop (against the freshly updated high), then Timeout; the
first matching condition is the reason of the sell that closes the row,
and when none matches no sell happens and the row stays in the store (with
its high water updated) for the next pass. -/
theorem exit_conditions_priority (env : Env) (row : Position) (st : Store)
    (price : Rat) (payload : String)
    (hp : env.priceOf row.symbol = some price)
    (hrow : lookupPos row.symbol st = some row)
    (hsell : env.sellResp row.symbol = .ok payload) :
    (price ≥ row.entry_price * env.target_multiplier →
      monitorPosition env row st =
        ([.callPrice row.symbol, .callSell row.symbol row.qty,
          .notifySellExecuted row.symbol .TARGET payload],
         .ok (deletePos row.symbol (applyHighUpdate row price st)))) ∧
    (¬ price ≥ row.entry_price * env.target_multiplier →
     price ≤ pyMax row.high_price price * (1 - TRAIL_PERCENT) →
      monitorPosition env row st =
        ([.callPrice row.symbol, .callSell row.symbol row.qty,
          .notifySellExecuted row.symbol .TRAIL payload],
         .ok (deletePos row.symbol (applyHighUpdate row price st)))) ∧
    (¬ price ≥ row.entry_price * env.target_multiplier →
     ¬ price ≤ pyMax row.high_price price * (1 - TRAIL_PERCENT) →
     env.now - row.entry_time ≥ SELL_TIMEOUT →
      monitorPosition env row st =
        ([.callPrice row.symbol, .callSell row.symbol row.qty,
          .notifySellExecuted row.symbol .TIMEOUT payload],
         .ok (deletePos row.symbol (applyHighUpdate row price st)))) ∧
    (¬ price ≥ row.entry_price * env.target_multiplier →
     ¬ price ≤ pyMax row.high_price price * (1 - TRAIL_PERCENT) →
     ¬ env.now - row.entry_time ≥ SELL_TIMEOUT →
      monitorPosition env row st =
        ([.callPrice row.symbol], .ok (applyHighUpdate row price st)) ∧
      lookupPos row.symbol (applyHighUpdate row price st) =
        some { row with high_price := pyMax row.high_price price }) := by
  have hrow2 := lookupPos_applyHighUpdate_self row price st hrow
  refine ⟨?_, ?_, ?_, ?_⟩
  · intro h1
    have hec : exitCheck env.target_multiplier env.now row.entry_price
        row.entry_time (pyMax row.high_price price) price = some .TARGET := by
      simp [exitCheck, h1]
    rw [monitorPosition_exit env row st price .TARGET hp hec,
      market_sell_found_ok env row.symbol .TARGET _ _ payload hrow2 hsell]
    rfl
  · intro h1 h2
    have hec : exitCheck env.target_multiplier env.now row.entry_price
        row.entry_time (pyMax row.high_price price) price = some .TRAIL := by
      simp [exitCheck, h1, h2]
    rw [monitorPosition_exit env row st price .TRAIL hp hec,
      market_sell_found_ok env row.symbol .TRAIL _ _ payload hrow2 hsell]
    rfl
  · intro h1 h2 h3
    have hec : exitCheck env.target_multiplier env.now row.entry_price
        row.entry_time (pyMax row.high_price price) price = some .TIMEOUT := by
      simp [exitCheck, h1, h2, h3]
    rw [monitorPosition_exit env row st price .TIMEOUT hp hec,
      market_sell_found_ok env row.symbol .TIMEOUT _ _ payload hrow2 hsell]
    rfl
  · intro h1 h2 h3
    have hec : exitCheck env.target_multiplier env.now row.entry_price
        row.entry_time (pyMax row.high_price price) price = none := by
      simp [exitCheck, h1, h2, h3]
    exact ⟨monitorPosition_hold env row st price hp hec, hrow2⟩

theorem exit_conditions_priority_witness :
    monitorPosition envWtarget posW [posW] =
      ([.callPrice "WUSDT", .callSell "WUSDT" 2,
        .notifySellExecuted "WUSDT" .TARGET "sold"],
       .ok (deletePos "WUSDT" (applyHighUpdate posW 1000 [posW]))) ∧
    monitorPosition envWtrail posW [posW] =
      ([.callPrice "WUSDT", .callSell "WUSDT" 2,
        .notifySellExecuted "WUSDT" .TRAIL "sold"],
       .ok (deletePos "WUSDT" (applyHighUpdate posW 169 [posW]))) ∧
    monitorPosition envWtime posW [posW] =
      ([.callPrice "WUSDT", .callSell "WUSDT" 2,
        .notifySellExecuted "WUSDT" .TIMEOUT "sold"],
       .ok (deletePos "WUSDT" (applyHighUpdate posW 171 [posW]))) ∧
    monitorPosition envWhold posW [posW] =
      ([.callPrice "WUSDT"], .ok (applyHighUpdate posW 180 [posW])) := by
  refine ⟨?_, ?_, ?_, ?_⟩
  · exact (exit_conditions_priority envWtarget posW [posW] 1000 "sold"
      rfl (by decide) rfl).1
      (by norm_num [posW, envWtarget, env0])
  · exact (exit_conditions_priority envWtrail posW [posW] 169 "sold"
      rfl (by decide) rfl).2.1
      (by norm_num [posW, envWtrail, env0])
      (by norm_num [posW, envWtrail, env0, pyMax, TRAIL_PERCENT])
  · exact (exit_conditions_priority envWtime posW [posW] 171 "sold"
      rfl (by decide) rfl).2.2.1
      (by norm_num [posW, envWtime, env0])
      (by norm_num [posW, envWtime, env0, pyMax, TRAIL_PERCENT])
      (by norm_num [posW, envWtime, env0, SELL_TIMEOUT])
  · exact ((exit_conditions_priority envWhold posW [posW] 180 "sold"
      rfl (by decide) rfl).2.2.2
      (by norm_num [posW, envWhold, env0])
      (by norm_num [posW, envWhold, env0, pyMax, TRAIL_PERCENT])
      (by norm_num [posW, envWhold, env0, SELL_TIMEOUT])).1

end BotPy

namespace BotPy

/-- C5: starting from a store satisfying the primary-key invariant, any
run of engine passes leaves at most one row per symbol; and writing the
same symbol twice leaves exactly one row for it — the later one. -/
theorem at_most_one_position_per_symbol (envs : List Env)
    (known : List String) (st : Store) (h : symbolsUnique st) :
    symbolsUnique (runStore (run envs known st)) ∧
    (∀ p q : Position, q.symbol = p.symbol →
      (upsert q (upsert p st)).filter (fun r => r.symbol == q.symbol) = [q] ∧
      lookupPos q.symbol (upsert q (upsert p st)) = some q) :=
  ⟨symbolsUnique_run envs known st h,
   fun p q hqp =>
    ⟨upsert_upsert_same_filter p q st hqp, lookupPos_upsert_self q _⟩⟩

theorem at_most_one_position_per_symbol_witness :
    symbolsUnique (runStore (run [envPaused] [] [posA1, posB1])) ∧
    ((upsert posB1 (upsert ⟨"BUSDT", 9, 9, 9, 9⟩ [posA1])).filter
      (fun r => r.symbol == "BUSDT") = [posB1] ∧
     lookupPos "BUSDT" (upsert posB1 (upsert ⟨"BUSDT", 9, 9, 9, 9⟩ [posA1])) =
       some posB1) := by
  have h := at_most_one_position_per_symbol [envPaused] [] [posA1, posB1]
    (by unfold symbolsUnique; decide)
  exact ⟨h.1, h.2 ⟨"BUSDT", 9, 9, 9, 9⟩ posB1 (by decide)⟩

/-- C6: the high-water mark.  At open the stored `high_price` equals the
entry price; a monitor step that keeps the position rewrites the stored
high exactly when the fresh price exceeds it — to that price — and never
decreases it; and folded over any sequence of observations the stored
value is the maximum of the entry price and every observed price. -/
theorem high_water_mark :
    (∀ (env : Env) (s : String) (st : Store) (data : BuyResponse) (p : Rat)
        (ps : List Rat),
      env.buyResp s = .ok data → data.hasOrderId = true →
      data.fills = p :: ps →
      (market_buy env s st).2 =
        .ok (upsert ⟨s, data.executedQty, p, env.now, p⟩ st) ∧
      lookupPos s (upsert ⟨s, data.executedQty, p, env.now, p⟩ st) =
        some ⟨s, data.executedQty, p, env.now, p⟩) ∧
    (∀ (env : Env) (row : Position) (st : Store) (price : Rat),
      env.priceOf row.symbol = some price →
      lookupPos row.symbol st = some row →
      exitCheck env.target_multiplier env.now row.entry_price row.entry_time
        (pyMax row.high_price price) price = none →
      monitorPosition env row st =
        ([.callPrice row.symbol], .ok (applyHighUpdate row price st)) ∧
      lookupPos row.symbol (applyHighUpdate row price st) =
        some { row with high_price := pyMax row.high_price price } ∧
      row.high_price ≤ pyMax row.high_price price ∧
      (¬ price > row.high_price → applyHighUpdate row price st = st)) ∧
    (∀ (entry : Rat) (prices : List Rat),
      entry ≤ highAfter entry prices ∧
      (∀ p ∈ prices, p ≤ highAfter entry prices) ∧
      (highAfter entry prices = entry ∨ highAfter entry prices ∈ prices) ∧
      (∀ p, highAfter entry (prices ++ [p]) =
          pyMax (highAfter entry prices) p ∧
        highAfter entry prices ≤ highAfter entry (prices ++ [p]))) := by
  refine ⟨?_, ?_, ?_⟩
  · intro env s st data p ps hb ho hf
    constructor
    · simp [market_buy, hb, ho, hf]
    · exact lookupPos_upsert_self ⟨s, data.executedQty, p, env.now, p⟩ st
  · intro env row st price hp hrow hec
    exact ⟨monitorPosition_hold env row st price hp hec,
      lookupPos_applyHighUpdate_self row price st hrow,
      le_pyMax_left row.high_price price,
      fun hng => applyHighUpdate_no_change row price st hng⟩
  · intro entry prices
    refine ⟨entry_le_highAfter entry prices, mem_le_highAfter entry prices,
      highAfter_eq_entry_or_mem entry prices, fun p => ?_⟩
    constructor
    · exact highAfter_append_singleton entry p prices
    · rw [highAfter_append_singleton entry p prices]
      exact le_pyMax_left _ p

theorem high_water_mark_witness :
    lookupPos "XUSDT" (upsert ⟨"XUSDT", 3, 5, 77, 5⟩ []) =
      some ⟨"XUSDT", 3, 5, 77, 5⟩ ∧
    lookupPos "WUSDT" (applyHighUpdate posW 180 [posW]) =
      some { posW with high_price := pyMax 200 180 } ∧
    (4 : Rat) ≤ highAfter 4 [3, 7, 5] ∧
    (highAfter 4 [3, 7, 5] = 4 ∨ highAfter 4 [3, 7, 5] ∈ [(3 : Rat), 7, 5]) := by
  refine ⟨?_, ?_, ?_, ?_⟩
  · exact (high_water_mark.1 envC7fill "XUSDT" [] ⟨true, 3, [5]⟩ 5 []
      rfl rfl rfl).2
  · exact ((high_water_mark.2.1 envWhold posW [posW] 180 rfl (by decide)
      (by norm_num [exitCheck, posW, envWhold, env0, pyMax, TRAIL_PERCENT,
        SELL_TIMEOUT])).2).1
  · exact (high_water_mark.2.2 4 [3, 7, 5]).1
  · exact (high_water_mark.2.2 4 [3, 7, 5]).2.2.1

/-- C9: discovery's universe is exactly the symbols whose exchange status
is TRADING and whose identifier ends in USDT; candles are only ever
fetched (and buys only ever posted) for members of that filtered universe,
so a pair quoted in another currency — or a non-TRADING pair — is never
fetched nor bought, and the known set stored for the next pass is the
filtered universe itself. -/
theorem discovery_only_trading_usdt (env : Env) (known : List String)
    (st : Store) (t : String) (ht : pyEndsWith t "USDT" = false) :
    Event.callKlines t ∉ (cycle env known st).events ∧
    Event.callBuy t ∉ (cycle env known st).events ∧
    (∀ infos, env.exchangeInfo = some infos →
      (∀ s ∈ tradableUSDT infos, pyEndsWith s "USDT" = true ∧
        ∃ i, i ∈ infos ∧ i.symbol = s ∧ i.status = "TRADING") ∧
      (∀ u : String, (∀ i, i ∈ infos → i.symbol = u → i.status ≠ "TRADING") →
        Event.callKlines u ∉ (cycle env known st).events) ∧
      (∀ st2 known2, (cycle env known st).outcome = .ok (st2, known2) →
        env.bot_running = true → known2 = tradableUSDT infos)) := by
  refine ⟨?_, ?_, ?_⟩
  · intro h
    rcases callKlines_mem_cycle env known st t h with ⟨infos, _, hmem⟩
    rw [(mem_tradableUSDT infos t hmem).1] at ht
    cases ht
  · intro h
    rcases callBuy_mem_cycle env known st t h with ⟨infos, _, hmem⟩
    rw [(mem_tradableUSDT infos t hmem).1] at ht
    cases ht
  · intro infos hinfo
    refine ⟨fun s hs => mem_tradableUSDT infos s hs, ?_, ?_⟩
    · intro u hu h
      rcases callKlines_mem_cycle env known st u h with ⟨infos2, hinfo2, hmem⟩
      rw [hinfo] at hinfo2
      cases hinfo2
      rcases (mem_tradableUSDT infos u hmem).2 with ⟨i, hi, hiu, hstat⟩
      exact hu i hi hiu hstat
    · intro st2 known2 hout hbt
      exact cycle_known_of_ok env known st infos st2 known2
        (by simp [hbt]) hinfo hout

theorem discovery_only_trading_usdt_witness :
    Event.callKlines "BBBBTC" ∉ (cycle envC9 [] []).events ∧
    Event.callBuy "BBBBTC" ∉ (cycle envC9 [] []).events ∧
    ["AAAUSDT"] = tradableUSDT infosC9 := by
  have h := discovery_only_trading_usdt envC9 [] [] "BBBBTC" (by decide)
  refine ⟨h.1, h.2.1, ?_⟩
  exact ((h.2.2 infosC9 rfl).2.2 [] ["AAAUSDT"] (by decide) rfl).symm

end BotPy
